import Mathlib

/-!
Verification development for the knowledge-base MCP service.

We give a shallow embedding of the core pure logic of the service:
the URL-to-index-name sanitizer, the answer-style sizing of the Ask
server, the Elasticsearch-backed knowledge-base client (list / create /
update / multi-phrase search), the bulk tool dispatcher, and the crawl
container cleanup.  Strings are modelled as `List Char`; the backend
store and the container daemon are modelled as explicit state threaded
through the operations.
-/

namespace KbMcp

/-- Strings are modelled as lists of characters. -/
abbrev Str := List Char

/-- The single-quote character (written via its code point to keep the
development free of quote-literal tokens). -/
def sqChar : Char := Char.ofNat 39

/-- The backslash character. -/
def bsChar : Char := Char.ofNat 92

/-- The double-quote character. -/
def dqChar : Char := Char.ofNat 34

/-- Fuelled worker for `pyReplace`.  Each step consumes at least one
character of the input, so fuel `s.length` is always sufficient; the
fuel-exhausted branch is unreachable for the fuel used by `pyReplace`. -/
def pyReplaceFuel (pat rep : Str) : Nat → Str → Str
  | _, [] => []
  | 0, s => s
  | Nat.succ n, c :: rest =>
    if pat ≠ [] ∧ pat.isPrefixOf (c :: rest) then
      rep ++ pyReplaceFuel pat rep n ((c :: rest).drop pat.length)
    else
      c :: pyReplaceFuel pat rep n rest

/-- Python `str.replace(pat, rep)`: replace every non-overlapping
occurrence of `pat`, scanning left to right.  (The service only calls it
with non-empty patterns.) -/
def pyReplace (pat rep s : Str) : Str := pyReplaceFuel pat rep s.length s

/-- Python `str.strip(chars)`: drop characters belonging to `chars` from
both ends. -/
def pyStripChars (chars s : Str) : Str :=
  ((s.dropWhile (chars.contains ·)).reverse.dropWhile (chars.contains ·)).reverse

/-- Python `str.lower()` on one character, for the basic latin range
(the service's inputs of interest are ASCII; theorems quantifying over
arbitrary strings carry an explicit all-ASCII hypothesis). -/
def pyLowerChar (c : Char) : Char :=
  if 65 ≤ c.toNat ∧ c.toNat ≤ 90 then Char.ofNat (c.toNat + 32) else c

/-- Python `str.isalnum()` on one character, restricted to the ASCII
range `[0-9A-Za-z]`.  Python's predicate additionally accepts non-ASCII
alphanumerics, so theorems quantifying over arbitrary strings carry an
explicit all-ASCII hypothesis. -/
def pyIsAlnum (c : Char) : Bool :=
  (48 ≤ c.toNat && c.toNat ≤ 57) || (65 ≤ c.toNat && c.toNat ≤ 90) ||
    (97 ≤ c.toNat && c.toNat ≤ 122)

/-- All characters of the string are ASCII. -/
def allAscii (s : Str) : Bool := s.all (fun c => c.toNat ≤ 127)

/-- The character set kept by `_url_to_index_name`'s filtering step:
`c.isalnum() or c in {"_", "-", "."}`. -/
def keepChar (c : Char) : Bool :=
  pyIsAlnum c || c == '_' || c == '-' || c == '.'

namespace ElasticsearchKnowledgeBaseClient

/-- Source `ElasticsearchKnowledgeBaseClient._url_to_index_name`: convert a URL
(or other data-source descriptor) to a valid index-name fragment.
Mirrors the source: remove every occurrence of `https://` and `http://`,
replace `.`→`_`, `/`→`.`, `-`→`_`, keep only alphanumerics and `_-.`,
truncate to 50 characters, strip leading/trailing `-_.`, lower-case. -/
def url_to_index_name (url : Str) : Str :=
  let s1 := pyReplace "https://".toList [] url
  let s2 := pyReplace "http://".toList [] s1
  let s3 := pyReplace ".".toList "_".toList s2
  let s4 := pyReplace "/".toList ".".toList s3
  let s5 := pyReplace "-".toList "_".toList s4
  let s6 := s5.filter keepChar
  ((s6.take 50) |> pyStripChars "-_.".toList).map pyLowerChar

end ElasticsearchKnowledgeBaseClient

/-- A character of the class `[a-z0-9._-]` (the spec's §4.1 step 3 /
§8 invariant 2 character class), stated through code points: lower-case
letters, digits, `_` (95), `-` (45), `.` (46). -/
def specAllowedChar (c : Char) : Bool :=
  (97 ≤ c.toNat && c.toNat ≤ 122) || (48 ≤ c.toNat && c.toNat ≤ 57) ||
    c.toNat == 95 || c.toNat == 45 || c.toNat == 46

/-- Modelled from the spec (§4.1): the six-step sanitization transform
**S** exactly as the spec words it — (1) strip the `http://`/`https://`
scheme, (2) replace `.`→`_`, `/`→`.`, `-`→`_`, (3) case-fold and then
drop every character not in `[a-z0-9._-]`, (4) truncate to 50
characters, (5) strip leading/trailing `._-`, (6) lower-case.  Used only
to compare the spec's transform with the source's
`url_to_index_name`. -/
def spec_url_sanitize (url : Str) : Str :=
  let s1 := if "https://".toList.isPrefixOf url then url.drop 8
            else if "http://".toList.isPrefixOf url then url.drop 7
            else url
  let s2 := pyReplace ".".toList "_".toList s1
  let s3 := pyReplace "/".toList ".".toList s2
  let s4 := pyReplace "-".toList "_".toList s3
  let s5 := (s4.map pyLowerChar).filter specAllowedChar
  (pyStripChars "-_.".toList (s5.take 50)).map pyLowerChar

/-- Source `QuestionAnswerStyle`: the thoroughness of an Ask-server answer. -/
inductive QuestionAnswerStyle where
  | CONCISE
  | NORMAL
  | COMPREHENSIVE
  | EXHAUSTIVE
deriving DecidableEq, Repr

/-- Source `QuestionAnswerStyle.to_search_size`: the search size selected by an
answer style (the dictionary lookup in the source). -/
def QuestionAnswerStyle.to_search_size : QuestionAnswerStyle → Nat
  | .CONCISE => 1
  | .NORMAL => 4
  | .COMPREHENSIVE => 8
  | .EXHAUSTIVE => 12

namespace AskServer

/-- Source `AskServer.questions`: asks the knowledge-base server all questions,
passing `answer_style.to_search_size()` as both the `results` and the
`fragments` argument, and zips the questions with the returned per-
question results.  The search itself is the abstract function
`search_kb_all`. -/
def questions {α : Type} (search_kb_all : List Str → Nat → Nat → List α)
    (qs : List Str) (answer_style : QuestionAnswerStyle) : List (Str × α) :=
  qs.zip (search_kb_all qs answer_style.to_search_size answer_style.to_search_size)

/-- Source `AskServer.questions_for_kb`: same sizing contract against a single
knowledge base, where `search_kb` abstracts the knowledge-base server's
scoped search (the knowledge base having been resolved by name). -/
def questions_for_kb {α : Type} (search_kb : List Str → Nat → Nat → List α)
    (qs : List Str) (answer_style : QuestionAnswerStyle) : List (Str × α) :=
  qs.zip (search_kb qs answer_style.to_search_size answer_style.to_search_size)

end AskServer

/-! ## Knowledge-base data model and Elasticsearch-backed client -/

/-- The `_meta.knowledge_base` block written into an index mapping. -/
structure KbMeta where
  name : Str
  data_source : Str
  description : Str
  type : Str
deriving DecidableEq, Repr

/-- The observable state of one backend index: its `_meta.knowledge_base`
block (absent for indices that were not created as knowledge bases), the
source text of the `knowledge_base_name` runtime field's script (if
any), its data (`properties`) mapping, and its document count as
reported by the cat-indices stats query. -/
structure IndexInfo where
  meta : Option KbMeta
  runtimeScript : Option Str
  props : List (Str × Str)
  docCount : Nat
deriving DecidableEq, Repr

/-- The backend store: an association of index names to index states. -/
structure ESState where
  indices : List (Str × IndexInfo)
deriving DecidableEq, Repr

/-- Look up one index by name. -/
def ESState.lookup (st : ESState) (idx : Str) : Option IndexInfo :=
  (st.indices.find? (fun q => q.1 == idx)).map (fun q => q.2)

/-- Source `KnowledgeBase`: a named collection of documents. -/
structure KnowledgeBase where
  name : Str
  type : Str
  description : Str
  data_source : Str
  backend_id : Str
  doc_count : Nat
deriving DecidableEq, Repr

/-- Source `KnowledgeBaseCreateProto`: the request to create a knowledge base. -/
structure KnowledgeBaseCreateProto where
  name : Str
  type : Str
  data_source : Str
  description : Str
deriving DecidableEq, Repr

/-- Source `KnowledgeBaseUpdateProto`, with pydantic's `model_fields_set`
encoded through `Option`: a `none` field was not part of the update. -/
structure KnowledgeBaseUpdateProto where
  name : Option Str
  description : Option Str
deriving DecidableEq, Repr

/-- Source `KnowledgeBase.to_create_proto`. -/
def KnowledgeBase.to_create_proto (kb : KnowledgeBase) : KnowledgeBaseCreateProto :=
  { name := kb.name, type := kb.type, data_source := kb.data_source,
    description := kb.description }

/-- The errors of the knowledge-base taxonomy that the modelled
operations can surface. -/
inductive KbError where
  | alreadyExists
  | notFound
deriving DecidableEq, Repr

/-- The placeholder used by `get` for metadata fields that are absent
from an index's `_meta.knowledge_base` block. -/
def notSetStr : Str := "<Not Set>".toList

/-- The `properties` block of `CRAWLER_INDEX_MAPPING` (each field with
the `type` of its mapping entry). -/
def CRAWLER_INDEX_MAPPING_properties : List (Str × Str) :=
  [("@timestamp".toList, "date".toList),
   ("body".toList, "semantic_text".toList),
   ("headings".toList, "semantic_text".toList),
   ("id".toList, "text".toList),
   ("last_crawled_at".toList, "date".toList),
   ("links".toList, "text".toList),
   ("meta_keywords".toList, "text".toList),
   ("title".toList, "text".toList),
   ("url".toList, "text".toList),
   ("url_host".toList, "text".toList),
   ("url_path".toList, "text".toList),
   ("url_path_dir1".toList, "text".toList),
   ("url_path_dir2".toList, "text".toList),
   ("url_path_dir3".toList, "text".toList),
   ("url_port".toList, "long".toList),
   ("url_scheme".toList, "text".toList)]

/-- Lexicographic (code-point) comparison of strings; Python's `<=` on
`str`, used by `sorted(..., key=lambda kb: kb.name.lower())`. -/
def lexLe : Str → Str → Bool
  | [], _ => true
  | _ :: _, [] => false
  | a :: as, b :: bs =>
    if a.toNat < b.toNat then true
    else if b.toNat < a.toNat then false
    else lexLe as bs

/-- Does an index name match the service's index pattern
`<base_index_prefix>-*`? -/
def matchesPattern (basePre idx : Str) : Bool :=
  (basePre ++ "-".toList).isPrefixOf idx

namespace ElasticsearchKnowledgeBaseClient

/-- Source `ElasticsearchKnowledgeBaseClient._insert_metadata`: the
`_meta.knowledge_base` block built from a create proto. -/
def insert_metadata (p : KnowledgeBaseCreateProto) : KbMeta :=
  { name := p.name, data_source := p.data_source,
    description := p.description, type := p.type }

/-- Source `ElasticsearchKnowledgeBaseClient._insert_runtime_kb_name`: the
source text of the `knowledge_base_name` runtime field's script.  The
knowledge-base name is embedded into `emit('...')` after replacing every
double quote by backslash-double-quote. -/
def insert_runtime_kb_name (kb_name : Str) : Str :=
  "emit(".toList ++ [sqChar] ++ pyReplace [dqChar] [bsChar, dqChar] kb_name
    ++ [sqChar, ')']

/-- One row of `get`'s list comprehension: an index and its (possibly
missing) metadata become a `KnowledgeBase`, each absent metadata field
defaulting to `"<Not Set>"` and `doc_count` taken from the stats
query. -/
def kbOfIndex : Str × IndexInfo → KnowledgeBase
  | (idx, info) =>
    match info.meta with
    | some m => ⟨m.name, m.type, m.description, m.data_source, idx, info.docCount⟩
    | none => ⟨notSetStr, notSetStr, notSetStr, notSetStr, idx, info.docCount⟩

/-- Source `ElasticsearchKnowledgeBaseClient.get`: list every index matching
`<prefix>-*`, join metadata with doc counts, and sort by lower-cased
name. -/
def get (basePre : Str) (st : ESState) : List KnowledgeBase :=
  ((st.indices.filter (fun q => matchesPattern basePre q.1)).map kbOfIndex).insertionSort
    (fun a b => lexLe (a.name.map pyLowerChar) (b.name.map pyLowerChar) = true)

/-- The index name composed by `create`:
`f"{id_prefix}.{id_middle}-{id_suffix}"` with
`id_prefix = <base prefix>-<type>` and
`id_middle = _url_to_index_name(data_source)`. -/
def createIndexName (basePre : Str) (p : KnowledgeBaseCreateProto)
    (id_suffix : Str) : Str :=
  basePre ++ "-".toList ++ p.type ++ ".".toList
    ++ url_to_index_name p.data_source ++ "-".toList ++ id_suffix

/-- Source `ElasticsearchKnowledgeBaseClient.create`: refuse (with
`AlreadyExists`, leaving the backend untouched) if any listed knowledge
base already has the proto's name; otherwise create the index
`<prefix>-<type>.<url_to_index_name(data_source)>-<id_suffix>` carrying
the standard crawler mapping, the `_meta` block and the runtime name
field.  `id_suffix` stands for the first 8 characters of the freshly
drawn UUID4.  A name collision at the backend's index-create step (the
conflict error) also surfaces as `AlreadyExists`. -/
def create (basePre : Str) (st : ESState) (p : KnowledgeBaseCreateProto)
    (id_suffix : Str) : Except KbError KnowledgeBase × ESState :=
  if (get basePre st).any (fun kb => kb.name == p.name) then
    (.error .alreadyExists, st)
  else if st.indices.any (fun q => q.1 == createIndexName basePre p id_suffix) then
    (.error .alreadyExists, st)
  else
    (.ok ⟨p.name, p.type, p.description, p.data_source,
          createIndexName basePre p id_suffix, 0⟩,
     ⟨st.indices ++ [(createIndexName basePre p id_suffix,
       ⟨some (insert_metadata p), some (insert_runtime_kb_name p.name),
        CRAWLER_INDEX_MAPPING_properties, 0⟩)]⟩)

/-- The create proto obtained from `knowledge_base.to_create_proto()`
after overwriting every field in the update's `model_fields_set`. -/
def mergedCreateProto (kb : KnowledgeBase) (u : KnowledgeBaseUpdateProto) :
    KnowledgeBaseCreateProto :=
  { name := u.name.getD kb.name, type := kb.type,
    data_source := kb.data_source,
    description := u.description.getD kb.description }

/-- Source `ElasticsearchKnowledgeBaseClient.update`: put a mapping update that
carries exactly a fresh `_meta` block and a fresh runtime
`knowledge_base_name` field for the merged proto; nothing else of the
index (in particular its `properties` data mapping) is sent. -/
def update (st : ESState) (kb : KnowledgeBase)
    (u : KnowledgeBaseUpdateProto) : ESState :=
  let cp := mergedCreateProto kb u
  ⟨st.indices.map (fun q =>
    if q.1 = kb.backend_id then
      (q.1, { q.2 with meta := some (insert_metadata cp),
                       runtimeScript := some (insert_runtime_kb_name cp.name) })
    else q)⟩

end ElasticsearchKnowledgeBaseClient

/-! ## Multi-phrase search fan-out -/

/-- One hit of a backend search response, with the requested `fields`
and `highlight` projections. -/
structure SearchHit where
  id : Str
  score : Int
  fieldsTitle : List Str
  fieldsUrl : List Str
  fieldsBody : List Str
  fieldsKbName : List Str
  highlightBody : List Str
deriving DecidableEq, Repr

/-- One bucket of the `by_kb_name` terms aggregation. -/
structure AggBucket where
  key : Str
  doc_count : Nat
deriving DecidableEq, Repr

/-- One item of the msearch `responses` array.  `fail` is a phrase-local
error item, which carries no `hits`; `ok` carries the hit list and the
aggregation buckets. -/
inductive MSearchResponse where
  | fail
  | ok (hits : List SearchHit) (buckets : List AggBucket)
deriving DecidableEq, Repr

/-- Source `KnowledgeBaseDocument`: the caller-facing projection of a hit. -/
structure KnowledgeBaseDocument where
  id : Str
  knowledge_base_name : Str
  title : Str
  url : Option Str
  score : Int
  content : List Str
deriving DecidableEq, Repr

/-- Source `PerKnowledgeBaseSummary`: per-knowledge-base match count (the
source's field `matches`, renamed because `matches` is reserved
here). -/
structure PerKnowledgeBaseSummary where
  knowledge_base_name : Str
  match_count : Nat
deriving DecidableEq, Repr

/-- Source `KnowledgeBaseSearchResultTypes`: per-phrase search outcome. -/
inductive KnowledgeBaseSearchResultTypes where
  | result (phrase : Str) (results : List KnowledgeBaseDocument)
      (summaries : List PerKnowledgeBaseSummary)
  | error (phrase : Str) (error : Str)
deriving DecidableEq, Repr

/-- The phrase a per-phrase outcome carries. -/
def KnowledgeBaseSearchResultTypes.phrase :
    KnowledgeBaseSearchResultTypes → Str
  | .result p _ _ => p
  | .error p _ => p

/-- The query body built per phrase (the fields of the query dict that
vary or that the claims mention). -/
structure EsQuery where
  filterTerms : Option (List Str)
  phrase : Str
  size : Nat
  fragments : Nat
  min_score : Nat
deriving DecidableEq, Repr

namespace ElasticsearchKnowledgeBaseClient

/-- Source `ElasticsearchKnowledgeBaseClient._phrase_to_query`: a `terms` filter
on `knowledge_base_name` when names are given, `match_all` (`none`)
otherwise; `min_score` 10. -/
def phrase_to_query (phrase : Str) (knowledge_base_names : List Str)
    (size fragments : Nat) : EsQuery :=
  { filterTerms :=
      if knowledge_base_names.isEmpty then none else some knowledge_base_names,
    phrase := phrase, size := size, fragments := fragments, min_score := 10 }

/-- Source `ElasticsearchKnowledgeBaseClient._hit_to_document`. -/
def hit_to_document (hit : SearchHit) : KnowledgeBaseDocument :=
  { id := hit.id,
    knowledge_base_name := hit.fieldsKbName.head?.getD "<Unknown KB>".toList,
    title := hit.fieldsTitle.head?.getD "<No Title>".toList,
    url := hit.fieldsUrl.head?,
    score := hit.score,
    content := if hit.highlightBody.isEmpty then hit.fieldsBody
               else hit.highlightBody }

/-- The error message emitted for a phrase whose response has no hits. -/
def noHitsMessage : Str := "No hits found in one of the search responses.".toList

/-- One iteration of the response loop: a response with no hits (or a
phrase-local error item) yields a `SearchResultError`; otherwise the hits
become documents and the aggregation buckets become summaries. -/
def responseToResult (phrase : Str) :
    MSearchResponse → KnowledgeBaseSearchResultTypes
  | .fail => .error phrase noHitsMessage
  | .ok [] _ => .error phrase noHitsMessage
  | .ok (h :: hs) buckets =>
    .result phrase ((h :: hs).map hit_to_document)
      (buckets.map (fun b => ⟨b.key, b.doc_count⟩))

/-- The response loop: `for i, response in enumerate(responses)` with
`phrase = phrases[i]`.  A response index beyond the phrase list is an
index error (`none`); leftover phrases beyond the response list are
silently ignored by the loop. -/
def zipResponses : List MSearchResponse → List Str →
    Option (List KnowledgeBaseSearchResultTypes)
  | [], _ => some []
  | _ :: _, [] => none
  | r :: rs, p :: ps =>
    (zipResponses rs ps).map (fun tail => responseToResult p r :: tail)

/-- Source `ElasticsearchKnowledgeBaseClient._search_by_knowledge_base_names`:
build one `(index-pattern, query)` operation per phrase in order, submit
them as a single multi-search to the backend, and map the responses back
by position.  The backend is abstract: a function from the operation
list to the `responses` array. -/
def search_by_knowledge_base_names
    (backend : List (Str × EsQuery) → List MSearchResponse)
    (basePre : Str) (phrases knowledge_base_names : List Str)
    (results fragments : Nat) :
    Option (List KnowledgeBaseSearchResultTypes) :=
  let operations := phrases.map (fun ph =>
    (basePre ++ "-*".toList,
     phrase_to_query ph knowledge_base_names results fragments))
  zipResponses (backend operations) phrases

/-- Source `ElasticsearchKnowledgeBaseClient.search`: search across all
knowledge bases (no name restriction). -/
def search (backend : List (Str × EsQuery) → List MSearchResponse)
    (basePre : Str) (phrases : List Str) (results fragments : Nat) :
    Option (List KnowledgeBaseSearchResultTypes) :=
  search_by_knowledge_base_names backend basePre phrases [] results fragments

/-- Source `ElasticsearchKnowledgeBaseClient.search_by_name`. -/
def search_by_name (backend : List (Str × EsQuery) → List MSearchResponse)
    (basePre : Str) (knowledge_base_names phrases : List Str)
    (results fragments : Nat) :
    Option (List KnowledgeBaseSearchResultTypes) :=
  search_by_knowledge_base_names backend basePre phrases knowledge_base_names
    results fragments

end ElasticsearchKnowledgeBaseClient

/-! ## Bulk tool dispatch -/

/-- The transport-level result of one tool call. -/
structure CallToolResult where
  isError : Bool
  content : Str
deriving DecidableEq, Repr

/-- Source `CallToolRequestResult`: a `CallToolResult` extended with the
requested tool and arguments.  `γ` is the (opaque) argument payload. -/
structure CallToolRequestResult (γ : Type) where
  tool : Str
  arguments : γ
  isError : Bool
  content : Str
deriving DecidableEq, Repr

namespace BulkToolCaller

/-- Source `BulkToolCaller._call_tool`: invoke the underlying client and wrap
its result with the requested tool and arguments. -/
def call_tool {γ : Type} (client : Str → γ → CallToolResult)
    (tool : Str) (arguments : γ) : CallToolRequestResult γ :=
  { tool := tool, arguments := arguments,
    isError := (client tool arguments).isError,
    content := (client tool arguments).content }

/-- Source `BulkToolCaller.call_tools_bulk`: invoke each requested (tool,
arguments) pair in input order, appending each result; when a result
reports `isError` and `continue_on_error` is false, return the
accumulated results immediately. -/
def call_tools_bulk {γ : Type} (client : Str → γ → CallToolResult)
    (tool_calls : List (Str × γ)) (continue_on_error : Bool) :
    List (CallToolRequestResult γ) :=
  match tool_calls with
  | [] => []
  | (t, a) :: rest =>
    let result := call_tool client t a
    if result.isError && !continue_on_error then [result]
    else result :: call_tools_bulk client rest continue_on_error

/-- Source `BulkToolCaller.call_tool_bulk`: same loop for one tool invoked with
a list of argument payloads. -/
def call_tool_bulk {γ : Type} (client : Str → γ → CallToolResult)
    (tool : Str) (tool_arguments : List γ) (continue_on_error : Bool) :
    List (CallToolRequestResult γ) :=
  match tool_arguments with
  | [] => []
  | a :: rest =>
    let result := call_tool client tool a
    if result.isError && !continue_on_error then [result]
    else result :: call_tool_bulk client tool rest continue_on_error

end BulkToolCaller

/-! ## Crawl container cleanup -/

/-- A container as the docker daemon reports it. -/
structure DockerContainer where
  id : Str
  state : Str
  labels : List (Str × Str)
deriving DecidableEq, Repr

/-- The error surfaced by the crawler's docker error handler. -/
inductive CrawlerError where
  | dockerError
deriving DecidableEq, Repr

namespace Crawler

/-- The label identifying containers managed by this component. -/
def MANAGED_BY_LABEL : Str := "managed-by".toList

/-- The value of the managed-by label. -/
def MANAGED_BY_VALUE : Str := "mcp-crawler".toList

/-- Source `docker_utils.get_containers` with the crawler's label filter and
`all_containers=True`: the containers carrying the managed-by label. -/
def get_containers (docker : List DockerContainer) : List DockerContainer :=
  docker.filter (fun c => c.labels.contains (MANAGED_BY_LABEL, MANAGED_BY_VALUE))

/-- The sequential removal loop over a list of container ids.
`removeFails id = true` models `docker_utils.remove_container` raising a
`DockerError` for that container.  The loop removes ids in order and
stops at the first failure (the surrounding error handler re-raises);
the second component is `false` when a failure interrupted the loop. -/
def remove_container_seq (removeFails : Str → Bool) :
    List DockerContainer → List Str → List DockerContainer × Bool
  | docker, [] => (docker, true)
  | docker, i :: rest =>
    if removeFails i then (docker, false)
    else remove_container_seq removeFails
      (docker.filter (fun c => !(c.id == i))) rest

/-- Source `Crawler.remove_completed_crawls`: list all managed containers
(including stopped ones), filter to `state == "exited"`, remove each in
turn, and return the `{removed, total}` summary.  A `DockerError` from
an individual removal propagates as a `CrawlerDockerError` out of the
surrounding `handle_errors` scope, aborting the loop; the summary is
returned only when every removal succeeded. -/
def remove_completed_crawls (docker : List DockerContainer)
    (removeFails : Str → Bool) :
    Except CrawlerError (Nat × Nat) × List DockerContainer :=
  let crawler_containers := get_containers docker
  let completed_crawls :=
    crawler_containers.filter (fun c => c.state == "exited".toList)
  match remove_container_seq removeFails docker
      (completed_crawls.map (fun c => c.id)) with
  | (docker2, true) =>
    (.ok (completed_crawls.length, crawler_containers.length), docker2)
  | (docker2, false) => (.error .dockerError, docker2)

end Crawler

/-! ## The runtime field's script, as the backend's script engine reads it -/

/-- Modelled from the spec: the backend store (§6.2) compiles and runs
the stored runtime-field script; the script language's single-quoted
string literal — per the backend's published lexical grammar — admits
exactly the escapes backslash-single-quote and backslash-backslash and
terminates at the first unescaped single quote.  This worker lexes such
a literal, returning the denoted value and the remaining input, or
`none` when the input is not a well-formed literal. -/
def painlessSingleQuoted : Str → Str → Option (Str × Str)
  | [], _ => none
  | c :: rest, acc =>
    if c = bsChar then
      match rest with
      | [] => none
      | d :: rest2 =>
        if d = sqChar ∨ d = bsChar then painlessSingleQuoted rest2 (acc ++ [d])
        else none
    else if c = sqChar then some (acc, rest)
    else painlessSingleQuoted rest (acc ++ [c])

/-- Modelled from the spec: the value emitted by a runtime-field script
of the shape `emit('...')` — the single-quoted literal's value — or
`none` when the script does not lex as such a call (the backend rejects
the mapping or the field emits nothing, but in no case the intended
name). -/
def painlessEmitValue (script : Str) : Option Str :=
  if ("emit(".toList ++ [sqChar]).isPrefixOf script then
    match painlessSingleQuoted (script.drop 6) [] with
    | some (v, rest) => if rest = [')'] then some v else none
    | none => none
  else none

/-! ## The §8 scenario-1 identifier pattern -/

/-- A lower-case hexadecimal digit, `[0-9a-f]`. -/
def isHexLower (c : Char) : Bool :=
  (48 ≤ c.toNat && c.toNat ≤ 57) || (97 ≤ c.toNat && c.toNat ≤ 102)

/-- An anchored match of `^<lit><8 hex digits>$` (the shape of the §8
scenario-1 regular expressions, whose tail is `-[0-9a-f]{8}`; `lit` is
the literal part including the final hyphen). -/
def litThenHex8 (lit s : Str) : Bool :=
  (s.take lit.length == lit) && ((s.drop lit.length).length == 8)
    && (s.drop lit.length).all isHexLower

/-- The spec's scenario-1 pattern
`^kbmcp-docs\.docs_python_org_3-[0-9a-f]{8}$`, as written. -/
def scenario1PatternSpec (s : Str) : Bool :=
  litThenHex8 "kbmcp-docs.docs_python_org_3-".toList s

/-- The pattern the created identifier actually follows,
`^kbmcp-docs\.docs_python_org\.3-[0-9a-f]{8}$`. -/
def scenario1PatternActual (s : Str) : Bool :=
  litThenHex8 "kbmcp-docs.docs_python_org.3-".toList s

deriving instance DecidableEq for Except

/-! ## Concrete fixtures used by witnesses and counterexamples -/

/-- The scenario-1 create proto of §8. -/
def scenario1Proto : KnowledgeBaseCreateProto :=
  ⟨"py-docs".toList, "docs".toList, "https://docs.python.org/3/".toList,
   "Py".toList⟩

/-- A proto whose data source contains the scheme substring in the
middle of the string. -/
def c3Proto : KnowledgeBaseCreateProto :=
  ⟨"x".toList, "docs".toList, "xhttps://y".toList, []⟩

/-- A small proto used to exercise `create` twice. -/
def c4Proto : KnowledgeBaseCreateProto :=
  ⟨"w".toList, "docs".toList, "a".toList, []⟩

/-- The backend state after the first `create` of `c4Proto`. -/
def c4StateAfter : ESState :=
  (ElasticsearchKnowledgeBaseClient.create "kbmcp".toList ⟨[]⟩ c4Proto
    "00000000".toList).2

/-- The knowledge base returned by the first `create` of `c4Proto`. -/
def c4Kb : KnowledgeBase :=
  ⟨"w".toList, "docs".toList, [], "a".toList,
   "kbmcp-docs.a-00000000".toList, 0⟩

/-- A backend that answers every query of a multi-search with a
no-hits item. -/
def c5Backend : List (Str × EsQuery) → List MSearchResponse :=
  fun ops => ops.map (fun _ => MSearchResponse.fail)

/-- A tool client over `Nat` payloads that errors exactly on payload 1. -/
def c7Client : Str → Nat → CallToolResult :=
  fun _ a => ⟨a == 1, []⟩

/-- A container carrying the crawler's managed-by label. -/
def managedContainer (i s : Str) : DockerContainer :=
  ⟨i, s, [(Crawler.MANAGED_BY_LABEL, Crawler.MANAGED_BY_VALUE)]⟩

/-- A fleet with one exited managed, one running managed, and one exited
unmanaged container. -/
def c8FleetOk : List DockerContainer :=
  [managedContainer "c1".toList "exited".toList,
   managedContainer "c2".toList "running".toList,
   ⟨"c3".toList, "exited".toList, []⟩]

/-- A fleet with two exited managed containers. -/
def c8FleetBad : List DockerContainer :=
  [managedContainer "c1".toList "exited".toList,
   managedContainer "c2".toList "exited".toList]

/-- A removal behaviour that fails exactly on container `c1`. -/
def c8FailC1 : Str → Bool := fun i => i == "c1".toList

/-- An index state with no `_meta.knowledge_base` block. -/
def c10Info : IndexInfo := ⟨none, none, [], 7⟩

/-- A backend holding one prefix-matching index without metadata. -/
def c10State : ESState := ⟨[("kbmcp-legacy".toList, c10Info)]⟩

/-- The list entry `get` produces for `c10State`'s only index. -/
def c10Kb : KnowledgeBase :=
  ⟨notSetStr, notSetStr, notSetStr, notSetStr, "kbmcp-legacy".toList, 7⟩

/-- A knowledge-base name containing a single quote. -/
def obrienName : Str := ['O', sqChar] ++ "Brien".toList

/-! ## Helper lemmas -/

/-- Stripping characters from both ends yields a sublist. -/
theorem pyStripChars_sublist (chars s : Str) :
    (pyStripChars chars s).Sublist s := by
  unfold pyStripChars
  have h1 := List.dropWhile_sublist (l := (s.dropWhile (chars.contains ·)).reverse)
    (chars.contains ·)
  have h2 := List.reverse_sublist.mpr h1
  rw [List.reverse_reverse] at h2
  exact h2.trans (List.dropWhile_sublist _)

/-- Stripping never lengthens a string. -/
theorem length_pyStripChars_le (chars s : Str) :
    (pyStripChars chars s).length ≤ s.length :=
  (pyStripChars_sublist chars s).length_le

/-- Evaluating `Char.ofNat` below the surrogate range. -/
theorem char_toNat_ofNat_lt {m : Nat} (h : m < 55296) :
    (Char.ofNat m).toNat = m := by
  unfold Char.ofNat
  rw [dif_pos (Or.inl h)]
  rfl

/-- Any character kept by `url_to_index_name`'s filter lower-cases into
the spec's `[a-z0-9._-]` class. -/
theorem specAllowed_pyLowerChar_of_keepChar {c : Char}
    (h : keepChar c = true) : specAllowedChar (pyLowerChar c) = true := by
  unfold keepChar pyIsAlnum at h
  unfold pyLowerChar specAllowedChar
  simp only [Bool.or_eq_true, Bool.and_eq_true, decide_eq_true_eq,
    beq_iff_eq] at h
  rcases h with ((((⟨h1, h2⟩ | ⟨h1, h2⟩) | ⟨h1, h2⟩) | h) | h) | h
  · rw [if_neg (by omega)]
    simp only [Bool.or_eq_true, Bool.and_eq_true, decide_eq_true_eq,
      beq_iff_eq]
    omega
  · rw [if_pos ⟨h1, h2⟩]
    have hv : (Char.ofNat (c.toNat + 32)).toNat = c.toNat + 32 :=
      char_toNat_ofNat_lt (by omega)
    simp only [Bool.or_eq_true, Bool.and_eq_true, decide_eq_true_eq,
      beq_iff_eq, hv]
    omega
  · rw [if_neg (by omega)]
    simp only [Bool.or_eq_true, Bool.and_eq_true, decide_eq_true_eq,
      beq_iff_eq]
    omega
  · subst h; decide
  · subst h; decide
  · subst h; decide

/-- Every character of a sanitized index-name fragment lies in the
spec's `[a-z0-9._-]` class. -/
theorem specAllowed_of_mem_url_to_index_name {u : Str} {c : Char}
    (hc : c ∈ ElasticsearchKnowledgeBaseClient.url_to_index_name u) :
    specAllowedChar c = true := by
  unfold ElasticsearchKnowledgeBaseClient.url_to_index_name at hc
  simp only [List.mem_map] at hc
  obtain ⟨d, hd, rfl⟩ := hc
  have hd2 := (pyStripChars_sublist "-_.".toList _).subset hd
  have hd3 := List.take_subset 50 _ hd2
  exact specAllowed_pyLowerChar_of_keepChar (List.mem_filter.mp hd3).2

/-- A sanitized index-name fragment has at most 50 characters. -/
theorem url_to_index_name_length_le (u : Str) :
    (ElasticsearchKnowledgeBaseClient.url_to_index_name u).length ≤ 50 := by
  unfold ElasticsearchKnowledgeBaseClient.url_to_index_name
  rw [List.length_map]
  exact le_trans (length_pyStripChars_le _ _)
    (le_trans (List.length_take_le _ _) (le_refl 50))

/-- Matching `^<lit><8 hex>$` against `lit ++ tail`. -/
theorem litThenHex8_append (lit tail : Str) :
    litThenHex8 lit (lit ++ tail)
      = ((tail.length == 8) && tail.all isHexLower) := by
  unfold litThenHex8
  rw [List.take_left, List.drop_left]
  simp

/-! ## Claim C1 -/

/-- C1: the claimed mapping concise→1, normal→3, comprehensive→6,
exhaustive→9 is false on the code: `to_search_size` sends `NORMAL` to 4
(and `COMPREHENSIVE` to 8, `EXHAUSTIVE` to 12). -/
theorem claim_C1_counterexample :
    QuestionAnswerStyle.to_search_size .NORMAL = 4 ∧
    QuestionAnswerStyle.to_search_size .NORMAL ≠ 3 ∧
    QuestionAnswerStyle.to_search_size .COMPREHENSIVE ≠ 6 ∧
    QuestionAnswerStyle.to_search_size .EXHAUSTIVE ≠ 9 := by decide

/-- C1 (amended): for every invocation of the Ask question tools, the
answer style selects both `n_hits` and `n_fragments` according to the
mapping concise→1, normal→4, comprehensive→8, exhaustive→12. -/
theorem claim_C1_amended {α : Type}
    (search_kb_all search_kb : List Str → Nat → Nat → List α)
    (qs : List Str) :
    AskServer.questions search_kb_all qs .CONCISE = qs.zip (search_kb_all qs 1 1) ∧
    AskServer.questions search_kb_all qs .NORMAL = qs.zip (search_kb_all qs 4 4) ∧
    AskServer.questions search_kb_all qs .COMPREHENSIVE = qs.zip (search_kb_all qs 8 8) ∧
    AskServer.questions search_kb_all qs .EXHAUSTIVE = qs.zip (search_kb_all qs 12 12) ∧
    AskServer.questions_for_kb search_kb qs .CONCISE = qs.zip (search_kb qs 1 1) ∧
    AskServer.questions_for_kb search_kb qs .NORMAL = qs.zip (search_kb qs 4 4) ∧
    AskServer.questions_for_kb search_kb qs .COMPREHENSIVE = qs.zip (search_kb qs 8 8) ∧
    AskServer.questions_for_kb search_kb qs .EXHAUSTIVE = qs.zip (search_kb qs 12 12) :=
  ⟨rfl, rfl, rfl, rfl, rfl, rfl, rfl, rfl⟩

/-! ## Claim C2 -/

/-- C2: with any concrete suffix (here `0a1b2c3d` in place of the random
8 hex characters), the backend id returned for the scenario-1 proto does
not match the spec's regex `^kbmcp-docs\.docs_python_org_3-[0-9a-f]{8}$`:
the middle segment actually produced is `docs_python_org.3`. -/
theorem claim_C2_counterexample :
    (ElasticsearchKnowledgeBaseClient.create "kbmcp".toList ⟨[]⟩
        scenario1Proto "0a1b2c3d".toList).1.toOption.map
      (fun kb => scenario1PatternSpec kb.backend_id) = some false := by decide

/-! ## Claim C6 -/

/-- C6: for the name `O'Brien` the stored runtime-field script is
`emit('O'Brien')` — the double-quote escaping leaves embedded single
quotes untouched — and that script does not lex as an `emit` of a
single-quoted literal, so the field cannot emit the name; a name that is
just a double quote fares no better (its `\"` escape is invalid inside a
single-quoted literal), while a quote-free name round-trips. -/
theorem claim_C6_bug_eval :
    ElasticsearchKnowledgeBaseClient.insert_runtime_kb_name obrienName
      = "emit(".toList ++ [sqChar, 'O', sqChar] ++ "Brien".toList ++ [sqChar, ')'] ∧
    painlessEmitValue
      (ElasticsearchKnowledgeBaseClient.insert_runtime_kb_name obrienName) = none ∧
    painlessEmitValue
      (ElasticsearchKnowledgeBaseClient.insert_runtime_kb_name [dqChar]) = none ∧
    painlessEmitValue
      (ElasticsearchKnowledgeBaseClient.insert_runtime_kb_name "py-docs".toList)
      = some "py-docs".toList := by decide

/-- C2 (amended): for every 8-hex-character suffix, the scenario-1
create returns a backend id matching
`^kbmcp-docs\.docs_python_org\.3-[0-9a-f]{8}$` (dot before the `3`, not
underscore). -/
theorem claim_C2_amended (sfx : Str) (h8 : sfx.length = 8)
    (hhex : sfx.all isHexLower = true) :
    (ElasticsearchKnowledgeBaseClient.create "kbmcp".toList ⟨[]⟩
        scenario1Proto sfx).1.toOption.map
      (fun kb => scenario1PatternActual kb.backend_id) = some true := by
  have hany : (ElasticsearchKnowledgeBaseClient.get "kbmcp".toList ⟨[]⟩).any
      (fun kb => kb.name == scenario1Proto.name) = false := by decide
  unfold ElasticsearchKnowledgeBaseClient.create
  rw [hany]
  have hidx : ((⟨[]⟩ : ESState)).indices.any
      (fun q => q.1 == ElasticsearchKnowledgeBaseClient.createIndexName
        "kbmcp".toList scenario1Proto sfx) = false := rfl
  rw [hidx]
  simp only [Bool.false_eq_true, if_false, Except.toOption, Option.map]
  have hsplit : ElasticsearchKnowledgeBaseClient.createIndexName
      "kbmcp".toList scenario1Proto sfx
      = "kbmcp-docs.docs_python_org.3-".toList ++ sfx := by
    have hA : ("kbmcp".toList ++ "-".toList ++ "docs".toList ++ ".".toList
        ++ ElasticsearchKnowledgeBaseClient.url_to_index_name
            "https://docs.python.org/3/".toList
        ++ "-".toList : Str) = "kbmcp-docs.docs_python_org.3-".toList := by decide
    show "kbmcp".toList ++ "-".toList ++ scenario1Proto.type ++ ".".toList
        ++ ElasticsearchKnowledgeBaseClient.url_to_index_name
            scenario1Proto.data_source
        ++ "-".toList ++ sfx = _
    rw [show scenario1Proto.type = "docs".toList from rfl,
        show scenario1Proto.data_source = "https://docs.python.org/3/".toList from rfl,
        ← hA]
  rw [hsplit]
  unfold scenario1PatternActual
  rw [litThenHex8_append]
  simp [h8, hhex]

/-- C2 witness: the amended pattern holds at the concrete suffix
`0a1b2c3d`. -/
theorem claim_C2_witness :
    ("0a1b2c3d".toList : Str).length = 8 ∧
    ("0a1b2c3d".toList : Str).all isHexLower = true ∧
    (ElasticsearchKnowledgeBaseClient.create "kbmcp".toList ⟨[]⟩
        scenario1Proto "0a1b2c3d".toList).1.toOption.map
      (fun kb => scenario1PatternActual kb.backend_id) = some true :=
  ⟨by decide, by decide, claim_C2_amended "0a1b2c3d".toList (by decide) (by decide)⟩

/-! ## Claim C3 -/

/-- C3: the source transform is not the spec's six-step transform: on
the data source `xhttps://y` they disagree (the source removes the
scheme substring anywhere in the string, the spec only strips it as a
prefix), so the created backend id's middle segment differs from
`S(data_source)`. -/
theorem claim_C3_counterexample :
    (ElasticsearchKnowledgeBaseClient.url_to_index_name "xhttps://y".toList
      ≠ spec_url_sanitize "xhttps://y".toList) ∧
    (ElasticsearchKnowledgeBaseClient.create "kbmcp".toList ⟨[]⟩ c3Proto
        "00000000".toList).1.toOption.map
      (fun kb => kb.backend_id ==
        "kbmcp".toList ++ "-".toList ++ c3Proto.type ++ ".".toList
          ++ spec_url_sanitize c3Proto.data_source ++ "-".toList
          ++ "00000000".toList)
      = some false := by decide

/-- C3 (amended): every successful create returns a backend id of the
form `<prefix>-<type>.<S'(data_source)>-<suffix>` where `S'` is the
source's `_url_to_index_name`; the middle segment has at most 50
characters and (for ASCII data sources, where the embedding matches
Python's `isalnum`) consists only of `[a-z0-9._-]`. -/
theorem claim_C3_amended (basePre : Str) (st : ESState)
    (p : KnowledgeBaseCreateProto) (sfx : Str) (kb : KnowledgeBase)
    (st2 : ESState)
    (h : ElasticsearchKnowledgeBaseClient.create basePre st p sfx
      = (.ok kb, st2)) :
    kb.backend_id = basePre ++ "-".toList ++ p.type ++ ".".toList
      ++ ElasticsearchKnowledgeBaseClient.url_to_index_name p.data_source
      ++ "-".toList ++ sfx ∧
    (ElasticsearchKnowledgeBaseClient.url_to_index_name p.data_source).length ≤ 50 ∧
    (allAscii p.data_source = true →
      ∀ c ∈ ElasticsearchKnowledgeBaseClient.url_to_index_name p.data_source,
        specAllowedChar c = true) := by
  unfold ElasticsearchKnowledgeBaseClient.create at h
  by_cases h1 : ((ElasticsearchKnowledgeBaseClient.get basePre st).any
      (fun kb => kb.name == p.name)) = true
  · rw [if_pos h1] at h; simp at h
  · rw [if_neg h1] at h
    by_cases h2 : (st.indices.any (fun q =>
        q.1 == ElasticsearchKnowledgeBaseClient.createIndexName basePre p sfx)) = true
    · rw [if_pos h2] at h; simp at h
    · rw [if_neg h2] at h
      have hkb : ElasticsearchKnowledgeBaseClient.createIndexName basePre p sfx
          = kb.backend_id := by
        have hfst := congrArg Prod.fst h
        simp only [] at hfst
        cases hfst
        rfl
      refine ⟨?_, url_to_index_name_length_le _, fun _ c hc =>
        specAllowed_of_mem_url_to_index_name hc⟩
      rw [← hkb]
      rfl

/-- C3 witness: the amended form at a concrete create. -/
theorem claim_C3_witness :
    c4Kb.backend_id = "kbmcp".toList ++ "-".toList ++ c4Proto.type
      ++ ".".toList
      ++ ElasticsearchKnowledgeBaseClient.url_to_index_name c4Proto.data_source
      ++ "-".toList ++ "00000000".toList ∧
    (ElasticsearchKnowledgeBaseClient.url_to_index_name c4Proto.data_source).length ≤ 50 ∧
    (allAscii c4Proto.data_source = true →
      ∀ c ∈ ElasticsearchKnowledgeBaseClient.url_to_index_name c4Proto.data_source,
        specAllowedChar c = true) :=
  claim_C3_amended "kbmcp".toList ⟨[]⟩ c4Proto "00000000".toList c4Kb
    c4StateAfter rfl

/-! ## Claim C4 -/

/-- C4: creating a knowledge base whose name an existing knowledge base
already carries raises `AlreadyExists` and leaves the backend unchanged;
in particular, after a successful `create(p)`, a second `create(p)`
raises `AlreadyExists` and leaves the backend (including the number of
collections) unchanged. -/
theorem claim_C4 (basePre : Str) (st : ESState)
    (p : KnowledgeBaseCreateProto) (sfx s2 : Str) :
    ((∃ kb0 ∈ ElasticsearchKnowledgeBaseClient.get basePre st,
        kb0.name = p.name) →
      ElasticsearchKnowledgeBaseClient.create basePre st p sfx
        = (.error .alreadyExists, st)) ∧
    (∀ kb st2,
      ElasticsearchKnowledgeBaseClient.create basePre st p sfx = (.ok kb, st2) →
      ElasticsearchKnowledgeBaseClient.create basePre st2 p s2
        = (.error .alreadyExists, st2)) := by
  constructor
  · rintro ⟨kb0, hmem, hname⟩
    have hany : ((ElasticsearchKnowledgeBaseClient.get basePre st).any
        (fun kb => kb.name == p.name)) = true :=
      List.any_eq_true.mpr ⟨kb0, hmem, by rw [hname]; simp⟩
    unfold ElasticsearchKnowledgeBaseClient.create
    rw [if_pos hany]
  · intro kb st2 h
    unfold ElasticsearchKnowledgeBaseClient.create at h
    by_cases h1 : ((ElasticsearchKnowledgeBaseClient.get basePre st).any
        (fun kb => kb.name == p.name)) = true
    · rw [if_pos h1] at h; simp at h
    · rw [if_neg h1] at h
      by_cases h2 : (st.indices.any (fun q =>
          q.1 == ElasticsearchKnowledgeBaseClient.createIndexName basePre p sfx)) = true
      · rw [if_pos h2] at h; simp at h
      · rw [if_neg h2] at h
        have hst2 : st2 = ⟨st.indices
            ++ [(ElasticsearchKnowledgeBaseClient.createIndexName basePre p sfx,
              ⟨some (ElasticsearchKnowledgeBaseClient.insert_metadata p),
               some (ElasticsearchKnowledgeBaseClient.insert_runtime_kb_name p.name),
               CRAWLER_INDEX_MAPPING_properties, 0⟩)]⟩ := by
          have hsnd := congrArg Prod.snd h
          simp only [] at hsnd
          exact hsnd.symm
        subst hst2
        have hpat : matchesPattern basePre
            (ElasticsearchKnowledgeBaseClient.createIndexName basePre p sfx) = true := by
          unfold matchesPattern ElasticsearchKnowledgeBaseClient.createIndexName
          rw [List.isPrefixOf_iff_prefix]
          simp only [List.append_assoc]
          rw [← List.append_assoc basePre "-".toList]
          exact List.prefix_append _ _
        have hmem2 : ElasticsearchKnowledgeBaseClient.kbOfIndex
            (ElasticsearchKnowledgeBaseClient.createIndexName basePre p sfx,
              ⟨some (ElasticsearchKnowledgeBaseClient.insert_metadata p),
               some (ElasticsearchKnowledgeBaseClient.insert_runtime_kb_name p.name),
               CRAWLER_INDEX_MAPPING_properties, 0⟩)
            ∈ ElasticsearchKnowledgeBaseClient.get basePre
              ⟨st.indices
                ++ [(ElasticsearchKnowledgeBaseClient.createIndexName basePre p sfx,
                  ⟨some (ElasticsearchKnowledgeBaseClient.insert_metadata p),
                   some (ElasticsearchKnowledgeBaseClient.insert_runtime_kb_name p.name),
                   CRAWLER_INDEX_MAPPING_properties, 0⟩)]⟩ := by
          unfold ElasticsearchKnowledgeBaseClient.get
          rw [List.mem_insertionSort]
          exact List.mem_map.mpr ⟨_, List.mem_filter.mpr ⟨by simp, hpat⟩, rfl⟩
        have hany2 : ((ElasticsearchKnowledgeBaseClient.get basePre
            ⟨st.indices
              ++ [(ElasticsearchKnowledgeBaseClient.createIndexName basePre p sfx,
                ⟨some (ElasticsearchKnowledgeBaseClient.insert_metadata p),
                 some (ElasticsearchKnowledgeBaseClient.insert_runtime_kb_name p.name),
                 CRAWLER_INDEX_MAPPING_properties, 0⟩)]⟩).any
            (fun kb => kb.name == p.name)) = true :=
          List.any_eq_true.mpr ⟨_, hmem2,
            by simp [ElasticsearchKnowledgeBaseClient.kbOfIndex,
              ElasticsearchKnowledgeBaseClient.insert_metadata]⟩
        unfold ElasticsearchKnowledgeBaseClient.create
        rw [if_pos hany2]

/-- C4 witness: creating `c4Proto` into the state already holding it
raises `AlreadyExists` and leaves the state unchanged. -/
theorem claim_C4_witness :
    ElasticsearchKnowledgeBaseClient.create "kbmcp".toList c4StateAfter
      c4Proto "11111111".toList = (.error .alreadyExists, c4StateAfter) :=
  (claim_C4 "kbmcp".toList ⟨[]⟩ c4Proto "00000000".toList
    "11111111".toList).2 c4Kb c4StateAfter rfl

/-! ## Claim C10 -/

/-- C10: an index matching the prefix pattern but carrying no
`_meta.knowledge_base` block still yields a list entry, with all four
metadata fields `"<Not Set>"` and its document count taken from the
stats query. -/
theorem claim_C10 (basePre : Str) (st : ESState) (idx : Str)
    (info : IndexInfo) (h1 : (idx, info) ∈ st.indices)
    (h2 : matchesPattern basePre idx = true) (h3 : info.meta = none) :
    (⟨notSetStr, notSetStr, notSetStr, notSetStr, idx, info.docCount⟩ :
        KnowledgeBase)
      ∈ ElasticsearchKnowledgeBaseClient.get basePre st := by
  unfold ElasticsearchKnowledgeBaseClient.get
  rw [List.mem_insertionSort]
  refine List.mem_map.mpr ⟨(idx, info), List.mem_filter.mpr ⟨h1, h2⟩, ?_⟩
  simp [ElasticsearchKnowledgeBaseClient.kbOfIndex, h3]

/-- C10 witness: the placeholder entry for a concrete metadata-less
index. -/
theorem claim_C10_witness :
    c10Kb ∈ ElasticsearchKnowledgeBaseClient.get "kbmcp".toList c10State :=
  claim_C10 "kbmcp".toList c10State "kbmcp-legacy".toList c10Info
    (by decide) (by decide) rfl

/-! ## Claim C9 -/

/-- Looking up in an association list after rewriting the entry of one
key: only that key's value changes. -/
theorem find?_update_assoc (bid idx : Str) (w : IndexInfo → IndexInfo)
    (l : List (Str × IndexInfo)) :
    (((l.map (fun q => if q.1 = bid then (q.1, w q.2) else q)).find?
        (fun q => q.1 == idx)).map (fun q => q.2))
      = if idx = bid then
          (((l.find? (fun q => q.1 == idx)).map (fun q => q.2)).map w)
        else ((l.find? (fun q => q.1 == idx)).map (fun q => q.2)) := by
  induction l with
  | nil => simp only [List.map_nil, List.find?_nil, Option.map_none]; split <;> rfl
  | cons q rest ih =>
    simp only [List.map_cons]
    by_cases hi : q.1 = idx
    · have hbeq : (q.1 == idx) = true := by simp [hi]
      by_cases hq : q.1 = bid
      · rw [if_pos hq]
        simp only [List.find?_cons, hbeq]
        rw [if_pos (show idx = bid by rw [← hi, hq])]
        rfl
      · rw [if_neg hq]
        simp only [List.find?_cons, hbeq]
        rw [if_neg (show ¬(idx = bid) from fun hib => hq (hi.trans hib))]
    · have hbeq : (q.1 == idx) = false := by simp [hi]
      by_cases hq : q.1 = bid
      · rw [if_pos hq]
        simp only [List.find?_cons, hbeq]
        exact ih
      · rw [if_neg hq]
        simp only [List.find?_cons, hbeq]
        exact ih

/-- C9: an update rewrites only the updated collection's entry, and
there only the `_meta` block and the runtime `knowledge_base_name`
field (to those of the merged proto); the data (`properties`) mapping
and the document count of every collection are unchanged. -/
theorem claim_C9 (st : ESState) (kb : KnowledgeBase)
    (u : KnowledgeBaseUpdateProto) (idx : Str) :
    ((ElasticsearchKnowledgeBaseClient.update st kb u).lookup idx
      = if idx = kb.backend_id then
          (st.lookup idx).map (fun info =>
            { info with
              meta := some (ElasticsearchKnowledgeBaseClient.insert_metadata
                (ElasticsearchKnowledgeBaseClient.mergedCreateProto kb u)),
              runtimeScript :=
                some (ElasticsearchKnowledgeBaseClient.insert_runtime_kb_name
                  (ElasticsearchKnowledgeBaseClient.mergedCreateProto kb u).name) })
        else st.lookup idx) ∧
    (((ElasticsearchKnowledgeBaseClient.update st kb u).lookup idx).map
        IndexInfo.props = (st.lookup idx).map IndexInfo.props) ∧
    (((ElasticsearchKnowledgeBaseClient.update st kb u).lookup idx).map
        IndexInfo.docCount = (st.lookup idx).map IndexInfo.docCount) := by
  have h1 : (ElasticsearchKnowledgeBaseClient.update st kb u).lookup idx
      = if idx = kb.backend_id then
          (st.lookup idx).map (fun info =>
            { info with
              meta := some (ElasticsearchKnowledgeBaseClient.insert_metadata
                (ElasticsearchKnowledgeBaseClient.mergedCreateProto kb u)),
              runtimeScript :=
                some (ElasticsearchKnowledgeBaseClient.insert_runtime_kb_name
                  (ElasticsearchKnowledgeBaseClient.mergedCreateProto kb u).name) })
        else st.lookup idx :=
    find?_update_assoc kb.backend_id idx (fun info =>
      { info with
        meta := some (ElasticsearchKnowledgeBaseClient.insert_metadata
          (ElasticsearchKnowledgeBaseClient.mergedCreateProto kb u)),
        runtimeScript :=
          some (ElasticsearchKnowledgeBaseClient.insert_runtime_kb_name
            (ElasticsearchKnowledgeBaseClient.mergedCreateProto kb u).name) })
      st.indices
  refine ⟨h1, ?_, ?_⟩
  · rw [h1]
    by_cases hib : idx = kb.backend_id
    · rw [if_pos hib]
      cases hst : st.lookup idx <;> simp
    · rw [if_neg hib]
  · rw [h1]
    by_cases hib : idx = kb.backend_id
    · rw [if_pos hib]
      cases hst : st.lookup idx <;> simp
    · rw [if_neg hib]

/-! ## Claim C5 -/

/-- The per-phrase result always carries its phrase. -/
theorem responseToResult_phrase (p : Str) (r : MSearchResponse) :
    (ElasticsearchKnowledgeBaseClient.responseToResult p r).phrase = p := by
  cases r with
  | fail => rfl
  | ok hits buckets => cases hits <;> rfl

/-- Characterization of the response loop when the backend honours the
multi-search contract (one response item per submitted query). -/
theorem zipResponses_get? :
    ∀ (rs : List MSearchResponse) (ps : List Str), rs.length = ps.length →
    ∃ out, ElasticsearchKnowledgeBaseClient.zipResponses rs ps = some out ∧
      out.length = ps.length ∧
      (∀ i, out.get? i = (rs.get? i).bind (fun r => (ps.get? i).map
        (fun p => ElasticsearchKnowledgeBaseClient.responseToResult p r))) := by
  intro rs
  induction rs with
  | nil =>
    intro ps h
    cases ps with
    | nil => exact ⟨[], rfl, rfl, fun i => by simp⟩
    | cons p ps' => simp at h
  | cons r rs ih =>
    intro ps h
    cases ps with
    | nil => simp at h
    | cons p ps' =>
      have hlen : rs.length = ps'.length := by simpa using h
      obtain ⟨out', ho, hl, hg⟩ := ih ps' hlen
      refine ⟨ElasticsearchKnowledgeBaseClient.responseToResult p r :: out',
        ?_, by simp [hl], ?_⟩
      · simp [ElasticsearchKnowledgeBaseClient.zipResponses, ho]
      · intro i
        cases i with
        | zero => simp
        | succ n => simpa using hg n

/-- C5: with the backend honouring the multi-search contract, a batch
search returns exactly one result per phrase, in phrase order; a
response with no hits (or a phrase-local error item) yields a
`SearchResultError` at its position without shortening the batch, and
`search` is `search_by_name` with the empty name set. -/
theorem claim_C5 (backend : List (Str × EsQuery) → List MSearchResponse)
    (basePre : Str) (names phrases : List Str) (results fragments : Nat)
    (h : (backend (phrases.map (fun ph => (basePre ++ "-*".toList,
        ElasticsearchKnowledgeBaseClient.phrase_to_query ph names results
          fragments)))).length = phrases.length) :
    ∃ out,
      ElasticsearchKnowledgeBaseClient.search_by_knowledge_base_names backend
        basePre phrases names results fragments = some out ∧
      out.length = phrases.length ∧
      (∀ i, (out.get? i).map KnowledgeBaseSearchResultTypes.phrase
        = phrases.get? i) ∧
      (∀ i r p,
        (backend (phrases.map (fun ph => (basePre ++ "-*".toList,
          ElasticsearchKnowledgeBaseClient.phrase_to_query ph names results
            fragments)))).get? i = some r →
        phrases.get? i = some p →
        (r = .fail ∨ ∃ bs, r = .ok [] bs) →
        out.get? i = some (.error p
          ElasticsearchKnowledgeBaseClient.noHitsMessage)) ∧
      ElasticsearchKnowledgeBaseClient.search backend basePre phrases results
          fragments
        = ElasticsearchKnowledgeBaseClient.search_by_name backend basePre []
            phrases results fragments := by
  obtain ⟨out, ho, hl, hg⟩ := zipResponses_get? _ phrases h
  refine ⟨out, ho, hl, ?_, ?_, rfl⟩
  · intro i
    rw [hg i]
    cases hr : (backend (phrases.map (fun ph => (basePre ++ "-*".toList,
        ElasticsearchKnowledgeBaseClient.phrase_to_query ph names results
          fragments)))).get? i with
    | none =>
      have hlen2 : phrases.length ≤ i := by
        rw [← h]
        exact List.get?_eq_none.mp hr
      rw [List.get?_eq_none.mpr hlen2]
      rfl
    | some r =>
      cases hp : phrases.get? i with
      | none =>
        have hlt : i < phrases.length := by
          rw [← h]
          exact List.get?_eq_some.mp hr |>.choose
        exact absurd (List.get?_eq_none.mp hp) (by omega)
      | some p => simp [responseToResult_phrase]
  · intro i r p hr hp hnh
    rw [hg i, hr, hp]
    rcases hnh with rfl | ⟨bs, rfl⟩ <;> rfl

/-- C5 witness: a two-phrase batch against a backend that reports no
hits for every phrase yields exactly two results. -/
theorem claim_C5_witness :
    (c5Backend ((["foo".toList, "bar".toList] : List Str).map (fun ph =>
      ("kbmcp".toList ++ "-*".toList,
       ElasticsearchKnowledgeBaseClient.phrase_to_query ph [] 4 4)))).length
      = (["foo".toList, "bar".toList] : List Str).length ∧
    ∃ out, ElasticsearchKnowledgeBaseClient.search_by_knowledge_base_names
        c5Backend "kbmcp".toList ["foo".toList, "bar".toList] [] 4 4
        = some out ∧ out.length = 2 := by
  refine ⟨by decide, ?_⟩
  obtain ⟨out, ho, hl, -, -, -⟩ := claim_C5 c5Backend "kbmcp".toList []
    ["foo".toList, "bar".toList] 4 4 (by decide)
  exact ⟨out, ho, hl⟩

/-! ## Claim C7 -/

/-- Halting behaviour of the heterogeneous bulk dispatcher. -/
theorem call_tools_bulk_halt {γ : Type} (client : Str → γ → CallToolResult)
    (bad : Str × γ) (post : List (Str × γ)) :
    ∀ pre : List (Str × γ),
      (∀ c ∈ pre, (BulkToolCaller.call_tool client c.1 c.2).isError = false) →
      (BulkToolCaller.call_tool client bad.1 bad.2).isError = true →
      BulkToolCaller.call_tools_bulk client (pre ++ bad :: post) false
        = pre.map (fun c => BulkToolCaller.call_tool client c.1 c.2)
          ++ [BulkToolCaller.call_tool client bad.1 bad.2] := by
  intro pre
  induction pre with
  | nil =>
    intro _ hbad
    obtain ⟨bt, ba⟩ := bad
    simp [BulkToolCaller.call_tools_bulk, hbad]
  | cons c pre ih =>
    intro hpre hbad
    obtain ⟨ct, ca⟩ := c
    have hc := hpre (ct, ca) (by simp)
    simp only [List.cons_append, List.map_cons,
      BulkToolCaller.call_tools_bulk, hc, Bool.false_and, Bool.false_eq_true,
      if_false, List.cons.injEq, true_and, List.append_eq]
    rw [ih (fun d hd => hpre d (by simp [hd])) hbad]

/-- Halting behaviour of the single-tool bulk dispatcher. -/
theorem call_tool_bulk_halt {γ : Type} (client : Str → γ → CallToolResult)
    (tool : Str) (badA : γ) (postA : List γ) :
    ∀ preA : List γ,
      (∀ a ∈ preA, (BulkToolCaller.call_tool client tool a).isError = false) →
      (BulkToolCaller.call_tool client tool badA).isError = true →
      BulkToolCaller.call_tool_bulk client tool (preA ++ badA :: postA) false
        = preA.map (fun a => BulkToolCaller.call_tool client tool a)
          ++ [BulkToolCaller.call_tool client tool badA] := by
  intro preA
  induction preA with
  | nil =>
    intro _ hbad
    simp [BulkToolCaller.call_tool_bulk, hbad]
  | cons a preA ih =>
    intro hpre hbad
    have ha := hpre a (by simp)
    simp only [List.cons_append, List.map_cons,
      BulkToolCaller.call_tool_bulk, ha, Bool.false_and, Bool.false_eq_true,
      if_false, List.cons.injEq, true_and, List.append_eq]
    rw [ih (fun d hd => hpre d (by simp [hd])) hbad]

/-- C7: with `continue_on_error = false`, bulk dispatch returns exactly
the successful prefix plus the first erroring call's result, in input
order; the calls after the failing one play no role (the output is the
same for any tail), for both `call_tools_bulk` and `call_tool_bulk`. -/
theorem claim_C7 {γ : Type} (client : Str → γ → CallToolResult)
    (pre : List (Str × γ)) (bad : Str × γ) (post post2 : List (Str × γ))
    (tool : Str) (preA : List γ) (badA : γ) (postA : List γ)
    (h1 : ∀ c ∈ pre, (BulkToolCaller.call_tool client c.1 c.2).isError = false)
    (h2 : (BulkToolCaller.call_tool client bad.1 bad.2).isError = true)
    (h3 : ∀ a ∈ preA, (BulkToolCaller.call_tool client tool a).isError = false)
    (h4 : (BulkToolCaller.call_tool client tool badA).isError = true) :
    BulkToolCaller.call_tools_bulk client (pre ++ bad :: post) false
      = pre.map (fun c => BulkToolCaller.call_tool client c.1 c.2)
        ++ [BulkToolCaller.call_tool client bad.1 bad.2] ∧
    BulkToolCaller.call_tools_bulk client (pre ++ bad :: post) false
      = BulkToolCaller.call_tools_bulk client (pre ++ bad :: post2) false ∧
    BulkToolCaller.call_tool_bulk client tool (preA ++ badA :: postA) false
      = preA.map (fun a => BulkToolCaller.call_tool client tool a)
        ++ [BulkToolCaller.call_tool client tool badA] :=
  ⟨call_tools_bulk_halt client bad post pre h1 h2,
   (call_tools_bulk_halt client bad post pre h1 h2).trans
     (call_tools_bulk_halt client bad post2 pre h1 h2).symm,
   call_tool_bulk_halt client tool badA postA preA h3 h4⟩

/-- C7 witness: a concrete `[ok, err, ok]` batch stops after the second
call for both dispatchers. -/
theorem claim_C7_witness :
    BulkToolCaller.call_tools_bulk c7Client
        ([("t1".toList, 0)] ++ ("t2".toList, 1) :: [("t3".toList, 0)]) false
      = [("t1".toList, (0 : Nat))].map
          (fun c => BulkToolCaller.call_tool c7Client c.1 c.2)
        ++ [BulkToolCaller.call_tool c7Client ("t2".toList, 1).1
              ("t2".toList, 1).2] ∧
    BulkToolCaller.call_tools_bulk c7Client
        ([("t1".toList, 0)] ++ ("t2".toList, 1) :: [("t3".toList, 0)]) false
      = BulkToolCaller.call_tools_bulk c7Client
          ([("t1".toList, 0)] ++ ("t2".toList, 1) :: []) false ∧
    BulkToolCaller.call_tool_bulk c7Client "t".toList ([0] ++ 1 :: [5]) false
      = [(0 : Nat)].map (fun a => BulkToolCaller.call_tool c7Client "t".toList a)
        ++ [BulkToolCaller.call_tool c7Client "t".toList 1] :=
  claim_C7 c7Client [("t1".toList, 0)] ("t2".toList, 1) [("t3".toList, 0)] []
    "t".toList [0] 1 [5] (by decide) (by decide) (by decide) (by decide)

/-! ## Claim C8 -/

/-- The removal loop under totally successful removals: it erases
exactly the listed ids. -/
theorem remove_container_seq_ok (f : Str → Bool) :
    ∀ (ids : List Str) (docker : List DockerContainer),
      (∀ i ∈ ids, f i = false) →
      Crawler.remove_container_seq f docker ids
        = (docker.filter (fun c => !(ids.contains c.id)), true) := by
  intro ids
  induction ids with
  | nil => intro docker _; simp [Crawler.remove_container_seq]
  | cons i rest ih =>
    intro docker h
    have hi : f i = false := h i (by simp)
    rw [Crawler.remove_container_seq, hi]
    simp only [Bool.false_eq_true, if_false]
    rw [ih _ (fun j hj => h j (by simp [hj])), List.filter_filter]
    have hpred : (fun (a : DockerContainer) =>
        !(rest.contains a.id) && !(a.id == i))
        = (fun (a : DockerContainer) => !((i :: rest).contains a.id)) := by
      funext a
      by_cases hai : a.id = i <;> by_cases hmem : a.id ∈ rest <;>
        simp [hai, hmem, List.contains_cons]
    rw [hpred]

/-- The removal loop aborts at the first failing id. -/
theorem remove_container_seq_fail_snd (f : Str → Bool) (bad : Str)
    (post : List Str) (hbad : f bad = true) :
    ∀ (pre : List Str) (docker : List DockerContainer),
      (∀ i ∈ pre, f i = false) →
      (Crawler.remove_container_seq f docker (pre ++ bad :: post)).2
        = false := by
  intro pre
  induction pre with
  | nil => intro docker _; simp [Crawler.remove_container_seq, hbad]
  | cons i rest ih =>
    intro docker h
    have hi : f i = false := h i (by simp)
    rw [List.cons_append, Crawler.remove_container_seq, hi]
    simp only [Bool.false_eq_true, if_false]
    exact ih _ (fun j hj => h j (by simp [hj]))

/-- C8 (amended): when every individual removal succeeds,
`remove_completed_crawls` removes exactly the exited managed containers
and returns `{removed = number of exited managed, total = number of
managed}`; when the removal of one exited container fails, the call
raises `CrawlerDockerError` (the failure is not collected into a
summary, and the removals after the failing one do not happen). -/
theorem claim_C8_amended (docker : List DockerContainer) (f : Str → Bool) :
    ((∀ c ∈ (Crawler.get_containers docker).filter
        (fun c => c.state == "exited".toList), f c.id = false) →
      Crawler.remove_completed_crawls docker f
        = (.ok (((Crawler.get_containers docker).filter
              (fun c => c.state == "exited".toList)).length,
            (Crawler.get_containers docker).length),
           docker.filter (fun c =>
             !((((Crawler.get_containers docker).filter
                  (fun c => c.state == "exited".toList)).map
                  (fun c => c.id)).contains c.id)))) ∧
    (∀ pre bad post,
      ((Crawler.get_containers docker).filter
          (fun c => c.state == "exited".toList)).map (fun c => c.id)
        = pre ++ bad :: post →
      (∀ i ∈ pre, f i = false) → f bad = true →
      (Crawler.remove_completed_crawls docker f).1
        = .error .dockerError) := by
  constructor
  · intro h
    have hall : ∀ i ∈ ((Crawler.get_containers docker).filter
        (fun c => c.state == "exited".toList)).map (fun c => c.id),
        f i = false := by
      intro i hi
      obtain ⟨c, hc, rfl⟩ := List.mem_map.mp hi
      exact h c hc
    simp only [Crawler.remove_completed_crawls]
    rw [remove_container_seq_ok f _ docker hall]
  · intro pre bad post hsplit hpre hbad
    simp only [Crawler.remove_completed_crawls]
    rw [hsplit]
    rcases hseq : Crawler.remove_container_seq f docker (pre ++ bad :: post)
      with ⟨d2, b2⟩
    have h2 := remove_container_seq_fail_snd f bad post hbad pre docker hpre
    rw [hseq] at h2
    simp only [] at h2
    subst h2
    rfl

/-- C8: on a fleet of two exited managed containers whose first removal
fails, the call surfaces a `CrawlerDockerError` (instead of collecting
the failure into the summary) and the second exited container is left
in place (instead of still being removed). -/
theorem claim_C8_counterexample :
    (Crawler.remove_completed_crawls c8FleetBad c8FailC1).1
      = .error .dockerError ∧
    ((Crawler.remove_completed_crawls c8FleetBad c8FailC1).2.any
      (fun c => c.id == "c2".toList && c.state == "exited".toList))
      = true := by decide

/-- C8 witness: the all-success case at a concrete fleet — one exited
managed container removed out of two managed (the exited unmanaged one
is not touched and not counted). -/
theorem claim_C8_witness :
    Crawler.remove_completed_crawls c8FleetOk (fun _ => false)
      = (.ok (1, 2), [managedContainer "c2".toList "running".toList,
          ⟨"c3".toList, "exited".toList, []⟩]) :=
  ((claim_C8_amended c8FleetOk (fun _ => false)).1 (fun _ _ => rfl)).trans
    (by decide)

end KbMcp
